import Mathlib

/-
  Verification of the ReelRecon Skeleton Ripper pipeline
  (src/skeleton_ripper/{cache,pipeline,extractor,prompts,aggregator,llm_client}.py).

  The Python code is shallowly embedded: pure helpers become Lean functions,
  the stateful pieces (transcript cache, acquisition loop, retrying extractor,
  LLM chat retry loop, pipeline orchestration) become explicit state passing
  over environment records whose fields stand for the external collaborators
  (platform fetch, download, transcribe, LLM responses).
-/

set_option autoImplicit false

namespace SkeletonRipper

/-! ## Python string primitives

Faithful models of the Python string operations the cache validity
predicates use: str.split() with no arguments (split on whitespace runs),
str.strip(), str.count(sub) (non-overlapping, left to right), str.lower().
-/

/-- Python str.split() with no arguments: split on runs of whitespace,
dropping empty fields.  The accumulator holds the current in-progress word,
reversed. -/
def splitWsAux : List Char → List Char → List (List Char)
  | [], [] => []
  | [], cur => [cur.reverse]
  | c :: rest, cur =>
    if c.isWhitespace then
      match cur with
      | [] => splitWsAux rest []
      | _ => cur.reverse :: splitWsAux rest []
    else
      splitWsAux rest (c :: cur)

/-- Model of len(transcript.split()) in Python. -/
def wordCount (s : String) : Nat :=
  (splitWsAux s.data []).length

/-- Python str.strip() on a character list: drop whitespace at both ends. -/
def pyStripL (cs : List Char) : List Char :=
  ((cs.dropWhile Char.isWhitespace).reverse.dropWhile Char.isWhitespace).reverse

/-- Python str.strip(). -/
def pyStrip (s : String) : String :=
  String.mk (pyStripL s.data)

/-- Python str.lower() (ASCII case folding, which is all the garbage
patterns need). -/
def pyLower (s : String) : String :=
  String.mk (s.data.map Char.toLower)

/-- Helper for pyCount: counts non-overlapping occurrences of a nonempty
needle, scanning left to right as Python str.count does.  After a match the
scan resumes past the matched span; the extra Nat argument counts how many
characters of the current match still have to be skipped, which keeps the
recursion structural. -/
def countSubAux (need : List Char) : List Char → Nat → Nat
  | [], _ => 0
  | c :: rest, 0 =>
    if need.isPrefixOf (c :: rest) then
      1 + countSubAux need rest (need.length - 1)
    else
      countSubAux need rest 0
  | _ :: rest, k + 1 => countSubAux need rest k

/-- Python hay.count(need): number of non-overlapping occurrences
(len(hay)+1 when the needle is empty, as in Python). -/
def pyCount (hay need : String) : Nat :=
  if need.data = [] then hay.data.length + 1
  else countSubAux need.data hay.data 0

/-! ## Transcript cache (src/skeleton_ripper/cache.py)

TranscriptCache stores transcripts keyed by sanitized file names.  The
on-disk store is modelled as an association list from the cache file name
to the transcript text.
-/

/-- Garbage patterns from TranscriptCache.is-valid (cache.py lines 194-200),
in source order. -/
def garbagePatterns : List String :=
  ["music", "â™ª", "subscribe", "[applause]", "[laughter]"]

/-- TranscriptCache validity predicate (cache.py lines 175-209): reject
empty text, text under 10 words, and text where any single garbage pattern
occurs more than word-count // 2 times in the lowercased text. -/
def cacheIsValidTranscript (t : String) : Bool :=
  if t = "" then false
  else
    let wc := wordCount t
    if wc < 10 then false
    else
      let low := pyLower t
      if garbagePatterns.any (fun p => wc / 2 < pyCount low p) then false
      else true

/-- Module-level validity predicate is-valid-transcript (cache.py lines
273-287): reject empty or whitespace-only text, then require at least
MIN-TRANSCRIPT-WORDS (10) words.  No garbage-pattern check. -/
def isValidTranscript (t : String) : Bool :=
  if t = "" || pyStrip t = "" then false
  else 10 ≤ wordCount t

/-- Filename sanitization in TranscriptCache.get-cache-path (cache.py lines
70-76): platform and username are lowercased, slashes and backslashes
become underscores; the video id keeps its case. -/
def sanitizeLower (s : String) : String :=
  ((pyLower s).replace "/" "_").replace "\\" "_"

/-- Sanitization of the video id (no lowercasing). -/
def sanitizeId (s : String) : String :=
  (s.replace "/" "_").replace "\\" "_"

/-- Cache file name for a (platform, username, video id) key. -/
def cachePath (platform username videoId : String) : String :=
  sanitizeLower platform ++ "_" ++ sanitizeLower username ++ "_"
    ++ sanitizeId videoId ++ ".txt"

/-- The on-disk transcript store: cache file name to file content. -/
def CacheState := List (String × String)

/-- Write a file: overwrite the entry with this name, or append one. -/
def assocSet : CacheState → String → String → CacheState
  | [], k, v => [(k, v)]
  | (k', v') :: rest, k, v =>
    if k' = k then (k, v) :: rest else (k', v') :: assocSet rest k v

/-- Read a file by name. -/
def assocGet : CacheState → String → Option String
  | [], _ => none
  | (k', v') :: rest, k => if k' = k then some v' else assocGet rest k

/-- TranscriptCache.set with the default validate=True (cache.py lines
104-138): validate with the cache predicate, write only when valid, and
report whether the transcript was cached. -/
def cacheSet (st : CacheState) (platform username videoId t : String) :
    CacheState × Bool :=
  if cacheIsValidTranscript t then
    (assocSet st (cachePath platform username videoId) t, true)
  else
    (st, false)

/-- TranscriptCache.get (cache.py lines 78-102): read the cache file and
return its text unless it is missing or whitespace-only. -/
def cacheGet (st : CacheState) (platform username videoId : String) :
    Option String :=
  match assocGet st (cachePath platform username videoId) with
  | some t => if pyStrip t = "" then none else some t
  | none => none

example : wordCount ("one two  three\nfour") = 4 := by decide
example : pyCount ("music music x") ("music") = 2 := by decide

/-! ### Relating the word count and strip -/

theorem splitWsAux_all_ws :
    ∀ cs cur, (∀ c ∈ cs, c.isWhitespace = true) →
      splitWsAux cs cur = if cur = [] then [] else [cur.reverse] := by
  intro cs
  induction cs with
  | nil =>
    intro cur _
    cases cur <;> simp [splitWsAux]
  | cons c rest ih =>
    intro cur hall
    have hc : c.isWhitespace = true := hall c (by simp)
    have hrest : ∀ x ∈ rest, x.isWhitespace = true := by
      intro x hx
      exact hall x (by simp [hx])
    cases cur with
    | nil => simp [splitWsAux, hc, ih [] hrest]
    | cons a as => simp [splitWsAux, hc, ih [] hrest]

theorem exists_nonws_of_wordCount_pos {t : String} (h : 0 < wordCount t) :
    ∃ c ∈ t.data, c.isWhitespace = false := by
  by_contra hcontra
  push_neg at hcontra
  have hall : ∀ c ∈ t.data, c.isWhitespace = true := by
    intro c hc
    have := hcontra c hc
    revert this
    cases c.isWhitespace <;> simp
  have hz : splitWsAux t.data [] = [] := by
    simpa using splitWsAux_all_ws t.data [] hall
  simp [wordCount, hz] at h

theorem pyStripL_ne_nil {cs : List Char} (h : ∃ c ∈ cs, c.isWhitespace = false) :
    pyStripL cs ≠ [] := by
  obtain ⟨c, hc, hnws⟩ := h
  have hsplit := List.takeWhile_append_dropWhile (p := Char.isWhitespace) (l := cs)
  have hmemd : c ∈ cs.dropWhile Char.isWhitespace := by
    have : c ∈ cs.takeWhile Char.isWhitespace ∨ c ∈ cs.dropWhile Char.isWhitespace := by
      rw [← List.mem_append, hsplit]
      exact hc
    rcases this with htk | hdp
    · exact absurd (List.mem_takeWhile_imp htk) (by simp [hnws])
    · exact hdp
  intro hnil
  have : (cs.dropWhile Char.isWhitespace).reverse.dropWhile Char.isWhitespace = [] := by
    have := congrArg List.reverse hnil
    simpa [pyStripL] using this
  rw [List.dropWhile_eq_nil_iff] at this
  have := this c (by simp [hmemd])
  simp [hnws] at this

theorem pyStrip_ne_empty_of_wordCount_pos {t : String} (h : 0 < wordCount t) :
    pyStrip t ≠ "" := by
  have hne := pyStripL_ne_nil (exists_nonws_of_wordCount_pos h)
  intro hempty
  apply hne
  have : (pyStrip t).data = ("" : String).data := by rw [hempty]
  simpa [pyStrip] using this

/-- The cache write predicate is strictly stronger than the module-level
predicate the acquisition loop uses: any text it accepts is nonempty and
has at least 10 words, which is all the loop predicate checks. -/
theorem cacheValid_imp_loopValid (t : String)
    (h : cacheIsValidTranscript t = true) : isValidTranscript t = true := by
  unfold cacheIsValidTranscript at h
  by_cases h0 : t = ""
  · simp [h0] at h
  · by_cases h1 : wordCount t < 10
    · simp [h0, h1] at h
    · have hwc : 10 ≤ wordCount t := Nat.not_lt.mp h1
      have hstrip : pyStrip t ≠ "" :=
        pyStrip_ne_empty_of_wordCount_pos (by omega)
      unfold isValidTranscript
      simp [h0, hstrip, hwc]

/-- A ten-word transcript consisting only of the filler token: the
acquisition loop predicate accepts it, the cache write predicate rejects it. -/
def garbageOnlyTranscript : String :=
  "music music music music music music music music music music"

/-- C1 counterexample: the validity predicate the acquisition loop uses
(module-level is-valid-transcript, pipeline.py line 553) and the validity
predicate the cache applies on write (TranscriptCache private validator,
cache.py line 126) are not extensionally equal: a ten-word transcript made
only of the filler token "music" is accepted by the loop predicate but
rejected by the cache predicate, whose garbage-pattern rule fires. -/
theorem C1_counterexample :
    isValidTranscript garbageOnlyTranscript = true ∧
      cacheIsValidTranscript garbageOnlyTranscript = false := by
  constructor <;> decide

/-- C1 (amended): the two predicates are not equivalent, only one inclusion
holds.  Every text the cache write predicate accepts is also accepted by
the acquisition loop check (the cache predicate adds the garbage-pattern
rule on top of the word-count rule), but not conversely. -/
theorem C1_amended (t : String) (h : cacheIsValidTranscript t = true) :
    isValidTranscript t = true :=
  cacheValid_imp_loopValid t h

/-- Witness for C1 amended at a concrete valid transcript. -/
theorem C1_witness :
    cacheIsValidTranscript
        ("alpha beta gamma delta epsilon zeta eta theta iota kappa") = true ∧
      isValidTranscript
        ("alpha beta gamma delta epsilon zeta eta theta iota kappa") = true :=
  ⟨by decide, C1_amended _ (by decide)⟩

/-! ### Cache set/get round trip (C8) -/

theorem assocGet_assocSet (st : CacheState) (k v : String) :
    assocGet (assocSet st k v) k = some v := by
  induction st with
  | nil => simp [assocSet, assocGet]
  | cons hd rest ih =>
    obtain ⟨k', v'⟩ := hd
    by_cases hk : k' = k
    · simp [assocSet, assocGet, hk]
    · simp [assocSet, assocGet, hk, ih]

theorem isValid_strip_ne {t : String} (h : isValidTranscript t = true) :
    pyStrip t ≠ "" := by
  intro h1
  simp [isValidTranscript, h1] at h

/-- C8: with the default validate=True, cache.set persists the record
exactly when the text passes the cache validity predicate (an invalid text
leaves the store untouched and reports false), and after a successful set,
cache.get at the same key returns exactly the stored text. -/
theorem C8_cache_set_get (st : CacheState) (p c v t : String) :
    ((cacheSet st p c v t).snd = true ↔ cacheIsValidTranscript t = true) ∧
      (cacheIsValidTranscript t = false → cacheSet st p c v t = (st, false)) ∧
      (cacheIsValidTranscript t = true →
        cacheGet (cacheSet st p c v t).fst p c v = some t) := by
  refine ⟨?_, ?_, ?_⟩
  · unfold cacheSet
    by_cases hv : cacheIsValidTranscript t = true <;> simp [hv]
  · intro hv
    simp [cacheSet, hv]
  · intro hv
    have hstrip : pyStrip t ≠ "" := isValid_strip_ne (cacheValid_imp_loopValid t hv)
    simp [cacheSet, cacheGet, hv, assocGet_assocSet, hstrip]

/-- Witness for C8 at a concrete key and valid text, starting from the
empty store: the set succeeds and the get returns the stored text. -/
theorem C8_witness :
    (cacheSet [] ("instagram") ("alice") ("vid1")
        ("alpha beta gamma delta epsilon zeta eta theta iota kappa")).snd = true ∧
      cacheGet (cacheSet [] ("instagram") ("alice") ("vid1")
          ("alpha beta gamma delta epsilon zeta eta theta iota kappa")).fst
        ("instagram") ("alice") ("vid1") =
        some ("alpha beta gamma delta epsilon zeta eta theta iota kappa") :=
  ⟨(C8_cache_set_get [] ("instagram") ("alice") ("vid1")
      ("alpha beta gamma delta epsilon zeta eta theta iota kappa")).1.mpr (by decide),
    (C8_cache_set_get [] ("instagram") ("alice") ("vid1")
      ("alpha beta gamma delta epsilon zeta eta theta iota kappa")).2.2 (by decide)⟩

/-! ## Acquisition stage (pipeline.py, per-creator body of
scrape-and-transcribe, lines 397-589, and get-cached-transcripts,
lines 591-628)

External collaborators (platform metadata fetch, video download, speech to
text) are fields of an environment record.  Ghost fields record the number
of collaborator calls and which branch produced the result.
-/

/-- Reel metadata as returned by the platform fetch. -/
structure Reel where
  shortcode : String
  views : Int
  likes : Int
  url : String
  video_url : String
deriving DecidableEq, Repr

/-- A transcript record as assembled by the acquisition stage (the dicts
appended to the transcripts list in pipeline.py). -/
structure TranscriptRec where
  video_id : String
  username : String
  platform : String
  views : Int
  likes : Int
  url : String
  video_url : String
  transcript : String
  from_cache : Bool
deriving DecidableEq, Repr

/-- Environment for one creator iteration of the acquisition loop. -/
structure CreatorEnv where
  platform : String
  username : String
  /-- Glob result for this creator: (file name stem, file content) pairs in
  directory order, as read by get-cached-transcripts. -/
  cacheFiles : List (String × String)
  /-- Result of get-user-reels: an error (or exception) message, or the
  fetched reel metadata list. -/
  reelsResult : Except String (List Reel)
  /-- cache.get during the candidate loop, keyed by video id (platform and
  username are fixed for the creator). -/
  cacheLookup : String → Option String
  /-- download-video collaborator: did the download succeed. -/
  download : Reel → Bool
  /-- Whether a transcription method is configured (OpenAI key or local
  Whisper model); if not, the loop skips without a transcribe call. -/
  canTranscribe : Bool
  /-- transcribe collaborator: the transcript text, or none on an
  exception or empty result. -/
  transcribe : Reel → Option String

/-- Python str.split(sep) for a single-character separator (empty fields
are kept, and the empty string yields one empty field, as in Python). -/
def splitOnCharAux (sep : Char) : List Char → List Char → List (List Char)
  | [], cur => [cur.reverse]
  | c :: rest, cur =>
    if c = sep then cur.reverse :: splitOnCharAux sep rest []
    else splitOnCharAux sep rest (c :: cur)

/-- Python stem.split(sep-underscore) as used on cache file stems. -/
def splitUnderscore (s : String) : List String :=
  (splitOnCharAux ('_') s.data []).map String.mk

/-- Video id extraction from a cache file stem in get-cached-transcripts
(pipeline.py lines 611-613): last underscore-separated part when the stem
has at least 3 parts, else the whole stem. -/
def stemVideoId (stem : String) : String :=
  let parts := splitUnderscore stem
  if 3 ≤ parts.length then parts.getLastD stem else stem

/-- get-cached-transcripts (pipeline.py lines 591-628): look at the first
count matching cache files, keep those whose content passes the
module-level validity predicate, and build records with views and likes
hard-coded to 0 (the comment in the source says they are not available
from the cache). -/
def getCachedTranscripts (platform username : String)
    (files : List (String × String)) (count : Nat) : List TranscriptRec :=
  ((files.take count).filter (fun f => isValidTranscript f.snd)).map
    (fun f =>
      { video_id := stemVideoId f.fst
        username := username
        platform := platform
        views := 0
        likes := 0
        url := ""
        video_url := ""
        transcript := f.snd
        from_cache := true })

/-- Mutable state threaded through the candidate loop. -/
structure LoopSt where
  records : List TranscriptRec := []
  validCount : Nat := 0
  attempted : Nat := 0
  downloadCalls : Nat := 0
  transcribeCalls : Nat := 0
  /-- cache.set writes made during this loop (video id, text), newest
  first. -/
  cacheWrites : List (String × String) := []

/-- In-loop cache.get: a write made earlier in this run shadows the
pre-existing store; the whitespace-only guard of cache.get applies. -/
def loopCacheGet (env : CreatorEnv) (st : LoopSt) (vid : String) :
    Option String :=
  match st.cacheWrites.lookup vid with
  | some t => if pyStrip t = "" then none else some t
  | none => env.cacheLookup vid

/-- Record assembled in the candidate loop (pipeline.py lines 475-485 for a
cache hit, 557-567 for a fresh transcription): views and likes come from
the reel metadata fetched this run. -/
def mkLoopRecord (env : CreatorEnv) (reel : Reel) (text : String)
    (fromCache : Bool) : TranscriptRec :=
  { video_id := reel.shortcode
    username := env.username
    platform := env.platform
    views := reel.views
    likes := reel.likes
    url := reel.url
    video_url := reel.video_url
    transcript := text
    from_cache := fromCache }

/-- The candidate loop of scrape-and-transcribe (pipeline.py lines
460-577): walk the popularity-sorted reels, stop once the target is
reached, use a cached transcript when valid, otherwise download and
transcribe, caching and counting only transcripts that pass the
module-level validity predicate. -/
def loopReels (env : CreatorEnv) (target : Nat) :
    List Reel → LoopSt → LoopSt
  | [], st => st
  | reel :: rest, st =>
    if target ≤ st.validCount then st
    else
      let st1 := { st with attempted := st.attempted + 1 }
      let cachedOpt := loopCacheGet env st1 reel.shortcode
      if cachedOpt.any isValidTranscript then
        loopReels env target rest
          { st1 with
            records := st1.records ++ [mkLoopRecord env reel (cachedOpt.getD "") true]
            validCount := st1.validCount + 1 }
      else
        let st2 := { st1 with downloadCalls := st1.downloadCalls + 1 }
        if env.download reel then
          if env.canTranscribe then
            let st3 := { st2 with transcribeCalls := st2.transcribeCalls + 1 }
            match env.transcribe reel with
            | some text =>
              if isValidTranscript text then
                let st4 :=
                  { st3 with
                    cacheWrites :=
                      if cacheIsValidTranscript text then
                        (reel.shortcode, text) :: st3.cacheWrites
                      else st3.cacheWrites }
                loopReels env target rest
                  { st4 with
                    records := st4.records ++ [mkLoopRecord env reel text false]
                    validCount := st4.validCount + 1 }
              else
                loopReels env target rest st3
            | none => loopReels env target rest st3
          else loopReels env target rest st2
        else loopReels env target rest st2

/-- Result of the acquisition stage for one creator. -/
structure ScrapeOut where
  records : List TranscriptRec
  downloadCalls : Nat
  transcribeCalls : Nat
  /-- Number of get-user-reels metadata fetches (0 or 1). -/
  fetchCalls : Nat
  /-- Whether the whole-creator cache short circuit was taken. -/
  shortCircuit : Bool
  cacheWrites : List (String × String)
deriving Repr

/-- Per-creator body of scrape-and-transcribe (pipeline.py lines 397-589):
check the cache first and short-circuit when it returns at least
videos-per-creator records; otherwise fetch the reel metadata, sort by
views descending, and run the candidate loop. -/
def scrapeCreator (env : CreatorEnv) (target : Nat) : ScrapeOut :=
  let cached := getCachedTranscripts env.platform env.username env.cacheFiles target
  if cached ≠ [] ∧ target ≤ cached.length then
    { records := cached.take target
      downloadCalls := 0
      transcribeCalls := 0
      fetchCalls := 0
      shortCircuit := true
      cacheWrites := [] }
  else
    match env.reelsResult with
    | .error _ =>
      { records := [], downloadCalls := 0, transcribeCalls := 0
        fetchCalls := 1, shortCircuit := false, cacheWrites := [] }
    | .ok reels =>
      if reels = [] then
        { records := [], downloadCalls := 0, transcribeCalls := 0
          fetchCalls := 1, shortCircuit := false, cacheWrites := [] }
      else
        let sorted := reels.mergeSort (fun a b => decide (b.views ≤ a.views))
        let final := loopReels env target sorted {}
        { records := final.records
          downloadCalls := final.downloadCalls
          transcribeCalls := final.transcribeCalls
          fetchCalls := 1
          shortCircuit := false
          cacheWrites := final.cacheWrites }

/-! ### Cache short circuit (C3) -/

/-- A ten-word transcript that passes both validity predicates. -/
def sampleValidText : String :=
  "alpha beta gamma delta epsilon zeta eta theta iota kappa"

/-- C3: when the cache already holds at least targetCount valid transcripts
for the creator, the acquisition stage short-circuits: it returns exactly
targetCount records built from the cache and performs no download, no
transcribe, and not even a metadata fetch.  The first hypothesis is the
invariant every reachable store satisfies, since the only cache write path
(cache.set with validate=True) persists only texts the cache predicate
accepts; the target is at least 1 as the job configuration requires (1-5
videos per creator). -/
theorem C3_short_circuit (env : CreatorEnv) (target : Nat)
    (hinv : ∀ f ∈ env.cacheFiles, cacheIsValidTranscript f.snd = true)
    (hcount : target ≤ env.cacheFiles.countP (fun f => isValidTranscript f.snd))
    (htarget : 1 ≤ target) :
    (scrapeCreator env target).shortCircuit = true ∧
      (scrapeCreator env target).records.length = target ∧
      (∀ r ∈ (scrapeCreator env target).records, r.from_cache = true) ∧
      (scrapeCreator env target).downloadCalls = 0 ∧
      (scrapeCreator env target).transcribeCalls = 0 ∧
      (scrapeCreator env target).fetchCalls = 0 := by
  have hlenf : target ≤ env.cacheFiles.length :=
    le_trans hcount (List.countP_le_length _)
  have hfilter :
      (env.cacheFiles.take target).filter (fun f => isValidTranscript f.snd) =
        env.cacheFiles.take target := by
    apply List.filter_eq_self.mpr
    intro f hf
    exact cacheValid_imp_loopValid _
      (hinv f ((List.take_sublist target env.cacheFiles).mem hf))
  have hclen :
      (getCachedTranscripts env.platform env.username env.cacheFiles target).length
        = target := by
    simp [getCachedTranscripts, hfilter, List.length_take, Nat.min_eq_left hlenf]
  have hcne :
      getCachedTranscripts env.platform env.username env.cacheFiles target ≠ [] := by
    intro hnil
    rw [hnil] at hclen
    simp at hclen
    omega
  have hcond : (getCachedTranscripts env.platform env.username env.cacheFiles target
      ≠ [] ∧ target ≤ (getCachedTranscripts env.platform env.username
        env.cacheFiles target).length) := ⟨hcne, le_of_eq hclen.symm⟩
  have hout : scrapeCreator env target =
      { records := (getCachedTranscripts env.platform env.username
          env.cacheFiles target).take target
        downloadCalls := 0
        transcribeCalls := 0
        fetchCalls := 0
        shortCircuit := true
        cacheWrites := [] } := by
    unfold scrapeCreator
    rw [if_pos hcond]
  refine ⟨by rw [hout], ?_, ?_, by rw [hout], by rw [hout], by rw [hout]⟩
  · rw [hout]
    simp [List.length_take, hclen]
  · intro r hr
    rw [hout] at hr
    simp only at hr
    have hr' : r ∈ getCachedTranscripts env.platform env.username
        env.cacheFiles target := (List.take_sublist _ _).mem hr
    simp only [getCachedTranscripts, List.mem_map] at hr'
    obtain ⟨f, _, rfl⟩ := hr'
    rfl

/-- Concrete environment for the C3 witness: one valid cached file for the
creator, no network collaborators needed. -/
def c3Env : CreatorEnv :=
  { platform := "instagram"
    username := "alice"
    cacheFiles := [("instagram_alice_v1", sampleValidText)]
    reelsResult := .ok []
    cacheLookup := fun _ => none
    download := fun _ => false
    canTranscribe := false
    transcribe := fun _ => none }

/-- Witness for C3 at a concrete one-file cache and target 1. -/
theorem C3_witness :
    (scrapeCreator c3Env 1).shortCircuit = true ∧
      (scrapeCreator c3Env 1).records.length = 1 ∧
      (∀ r ∈ (scrapeCreator c3Env 1).records, r.from_cache = true) ∧
      (scrapeCreator c3Env 1).downloadCalls = 0 ∧
      (scrapeCreator c3Env 1).transcribeCalls = 0 ∧
      (scrapeCreator c3Env 1).fetchCalls = 0 :=
  C3_short_circuit c3Env 1 (by decide) (by decide) (by decide)

/-! ### Popularity metrics and the cache (C6) -/

/-- The reel list the metadata fetch of this run produced (empty when the
fetch failed). -/
def reelsOf (env : CreatorEnv) : List Reel :=
  match env.reelsResult with
  | .ok l => l
  | .error _ => []

/-- A record carries the popularity snapshot of some reel fetched this
run. -/
def carriesReelMetrics (reels : List Reel) (r : TranscriptRec) : Prop :=
  ∃ reel ∈ reels, r.video_id = reel.shortcode ∧ r.views = reel.views ∧
    r.likes = reel.likes

/-- A cache write stores exactly a transcribed text that passed the cache
validity predicate, never metrics. -/
def isTranscribedWrite (env : CreatorEnv) (reels : List Reel)
    (w : String × String) : Prop :=
  ∃ reel ∈ reels, env.transcribe reel = some w.snd ∧
    cacheIsValidTranscript w.snd = true

theorem loopReels_invariant (env : CreatorEnv) (target : Nat)
    (allReels : List Reel) :
    ∀ reels st, (∀ x ∈ reels, x ∈ allReels) →
      (∀ r ∈ st.records, carriesReelMetrics allReels r) →
      (∀ w ∈ st.cacheWrites, isTranscribedWrite env allReels w) →
      (∀ r ∈ (loopReels env target reels st).records,
          carriesReelMetrics allReels r) ∧
        (∀ w ∈ (loopReels env target reels st).cacheWrites,
          isTranscribedWrite env allReels w) := by
  intro reels
  induction reels with
  | nil =>
    intro st _ hrec hw
    exact ⟨by simpa [loopReels] using hrec, by simpa [loopReels] using hw⟩
  | cons reel rest ih =>
    intro st hsub hrec hw
    have hreel : reel ∈ allReels := hsub reel (by simp)
    have hsub' : ∀ x ∈ rest, x ∈ allReels := fun x hx => hsub x (by simp [hx])
    rw [loopReels]
    by_cases htar : target ≤ st.validCount
    · simp only [if_pos htar]
      exact ⟨hrec, hw⟩
    · simp only [if_neg htar]
      set st1 := { st with attempted := st.attempted + 1 } with hst1
      have hrec1 : ∀ r ∈ st1.records, carriesReelMetrics allReels r := hrec
      have hw1 : ∀ w ∈ st1.cacheWrites, isTranscribedWrite env allReels w := hw
      by_cases hhit : (loopCacheGet env st1 reel.shortcode).any isValidTranscript
      · simp only [hhit, if_true]
        apply ih _ hsub'
        · intro r hr
          rcases List.mem_append.mp hr with hin | hnew
          · exact hrec1 r hin
          · have : r = mkLoopRecord env reel
                ((loopCacheGet env st1 reel.shortcode).getD "") true := by
              simpa using hnew
            exact ⟨reel, hreel, by simp [this, mkLoopRecord]⟩
        · exact hw1
      · simp only [hhit]
        by_cases hdl : env.download reel
        · simp only [hdl, if_true]
          by_cases hct : env.canTranscribe
          · simp only [hct, if_true]
            cases htx : env.transcribe reel with
            | some text =>
              by_cases hvalid : isValidTranscript text
              · simp only [hvalid, if_true]
                apply ih _ hsub'
                · intro r hr
                  rcases List.mem_append.mp hr with hin | hnew
                  · exact hrec1 r hin
                  · have : r = mkLoopRecord env reel text false := by
                      simpa using hnew
                    exact ⟨reel, hreel, by simp [this, mkLoopRecord]⟩
                · intro w hwmem
                  simp only at hwmem
                  by_cases hcv : cacheIsValidTranscript text
                  · rw [if_pos hcv] at hwmem
                    rcases List.mem_cons.mp hwmem with hnew | hin
                    · exact ⟨reel, hreel, by simp [hnew, htx], by simp [hnew, hcv]⟩
                    · exact hw1 w hin
                  · rw [if_neg hcv] at hwmem
                    exact hw1 w hwmem
              · simp only [hvalid]
                exact ih _ hsub' hrec1 hw1
            | none => exact ih _ hsub' hrec1 hw1
          · simp only [hct]
            exact ih _ hsub' hrec1 hw1
        · simp only [hdl]
          exact ih _ hsub' hrec1 hw1

/-- C6 (amended): popularity metrics are never written into the transcript
cache (every cache write made by the acquisition loop stores exactly a
transcribed text), and every record produced by the candidate loop -
whether a per-video cache hit or a fresh transcription - carries the views
and likes of a reel fetched from the platform during this run; but records
returned by the whole-creator cache short circuit carry views 0 and likes 0
and no metadata fetch happens at all on that path. -/
theorem C6_amended (env : CreatorEnv) (target : Nat) :
    (∀ r ∈ (scrapeCreator env target).records,
        ((scrapeCreator env target).shortCircuit = true →
          r.views = 0 ∧ r.likes = 0 ∧ r.from_cache = true) ∧
        ((scrapeCreator env target).shortCircuit = false →
          carriesReelMetrics (reelsOf env) r)) ∧
      (∀ w ∈ (scrapeCreator env target).cacheWrites,
        isTranscribedWrite env (reelsOf env) w) := by
  unfold scrapeCreator
  by_cases hsc : (getCachedTranscripts env.platform env.username env.cacheFiles
      target ≠ [] ∧ target ≤ (getCachedTranscripts env.platform env.username
        env.cacheFiles target).length)
  · rw [if_pos hsc]
    refine ⟨?_, by simp⟩
    intro r hr
    simp only at hr ⊢
    refine ⟨fun _ => ?_, fun hfalse => by simp at hfalse⟩
    have hr' : r ∈ getCachedTranscripts env.platform env.username
        env.cacheFiles target := (List.take_sublist _ _).mem hr
    simp only [getCachedTranscripts, List.mem_map] at hr'
    obtain ⟨f, _, rfl⟩ := hr'
    exact ⟨rfl, rfl, rfl⟩
  · rw [if_neg hsc]
    cases hres : env.reelsResult with
    | error e => simp
    | ok reels =>
      by_cases hre : reels = []
      · simp [hre]
      · simp only [hre, if_neg, reduceCtorEq]
        have hperm :
            (reels.mergeSort (fun a b => decide (b.views ≤ a.views))).Perm reels :=
          List.mergeSort_perm reels _
        have hsubs : ∀ x ∈ reels.mergeSort (fun a b => decide (b.views ≤ a.views)),
            x ∈ reels := fun x hx => hperm.mem_iff.mp hx
        have hreelsOf : reelsOf env = reels := by simp [reelsOf, hres]
        have hmain := loopReels_invariant env target reels
          (reels.mergeSort (fun a b => decide (b.views ≤ a.views))) {} hsubs
          (by intro r hr; simp at hr) (by intro w hw; simp at hw)
        refine ⟨?_, ?_⟩
        · intro r hr
          refine ⟨fun htrue => by simp at htrue, fun _ => ?_⟩
          rw [hreelsOf]
          exact hmain.1 r hr
        · intro w hw
          rw [hreelsOf]
          exact hmain.2 w hw

/-- The reel whose metadata this run fetches in the C6 counterexample. -/
def c6Reel : Reel :=
  { shortcode := "v1", views := 12345, likes := 678, url := "u", video_url := "vu" }

/-- Environment for the C6 counterexample: the creator has one valid cached
transcript for video v1, and the platform metadata for v1 in this run shows
12345 views and 678 likes. -/
def c6Env : CreatorEnv :=
  { platform := "instagram"
    username := "alice"
    cacheFiles := [("instagram_alice_v1", sampleValidText)]
    reelsResult := .ok [c6Reel]
    cacheLookup := fun _ => none
    download := fun _ => false
    canTranscribe := false
    transcribe := fun _ => none }

/-- C6 counterexample: on the whole-creator cache short circuit the
acquisition stage returns the cached transcript with views 0 and likes 0
and performs no metadata fetch, even though the platform metadata for that
very video in this run (c6Reel) carries 12345 views and 678 likes.  The
returned record therefore does not carry the views and likes fetched from
the platform during the run. -/
theorem C6_counterexample :
    (scrapeCreator c6Env 1).records.map
        (fun r => (r.video_id, r.views, r.likes, r.from_cache)) =
      [("v1", 0, 0, true)] ∧
      (scrapeCreator c6Env 1).fetchCalls = 0 ∧
      c6Reel.shortcode = "v1" ∧ c6Reel.views = 12345 ∧ c6Reel.likes = 678 := by
  refine ⟨by decide, by decide, rfl, rfl, rfl⟩

/-- Witness for C6 amended at the concrete short-circuit environment. -/
theorem C6_witness :
    (∀ r ∈ (scrapeCreator c6Env 1).records,
        ((scrapeCreator c6Env 1).shortCircuit = true →
          r.views = 0 ∧ r.likes = 0 ∧ r.from_cache = true) ∧
        ((scrapeCreator c6Env 1).shortCircuit = false →
          carriesReelMetrics (reelsOf c6Env) r)) ∧
      (∀ w ∈ (scrapeCreator c6Env 1).cacheWrites,
        isTranscribedWrite c6Env (reelsOf c6Env) w) :=
  C6_amended c6Env 1

/-! ## Batched extractor (src/skeleton_ripper/extractor.py and the
validation helpers of src/skeleton_ripper/prompts.py)

The LLM call plus response parsing is modelled as an oracle from (batch,
attempt depth) to either a parsed skeleton list, a JSON parse failure, or
any other exception.
-/

/-- A skeleton dict as parsed from the LLM response and enriched by the
extractor.  Fields are optional because the response may omit keys; the
enrichment fields start absent and are filled from the originating
transcript. -/
structure Skel where
  video_id : Option String := none
  hook : Option String := none
  hook_technique : Option String := none
  hook_word_count : Option ℚ := none
  value : Option String := none
  value_structure : Option String := none
  cta : Option String := none
  cta_type : Option String := none
  total_word_count : Option ℚ := none
  estimated_duration_seconds : Option ℚ := none
  creator_username : Option String := none
  platform : Option String := none
  views : Option Int := none
  likes : Option Int := none
  url : Option String := none
  video_url : Option String := none
  transcript : Option String := none
  extracted_at : Option String := none
  extraction_model : Option String := none
deriving DecidableEq, Repr

/-- Outcome of one LLM extraction request for a batch: a parsed response,
a JSON parse failure (parse-response returned None), or any other
exception in the request path. -/
inductive LLMOutcome where
  | ok (parsed : List Skel)
  | parseFail
  | err
deriving DecidableEq, Repr

/-- Environment of the batched extractor: the LLM-plus-parser oracle keyed
by the submitted batch and the retry depth, and the run-constant values
used to stamp successful records. -/
structure ExtractEnv where
  respond : List TranscriptRec → Nat → LLMOutcome
  now : String
  modelId : String

/-- Result of a batch extraction (extractor.py BatchExtractionResult). -/
structure BatchResult where
  successful : List Skel := []
  failed_video_ids : List String := []
  total_attempts : Nat := 0
deriving DecidableEq, Repr

/-- Python dict.get on an optional field. -/
def pyGetD (o : Option String) (d : String) : String := o.getD d

/-- A required field is present and truthy (prompts.py lines 269-273). -/
def presentNonempty : Option String → Bool
  | some s => s != ""
  | none => false

def validHookTechniques : List String :=
  ["curiosity", "contrast", "result", "question", "story", "shock"]

def validValueStructures : List String :=
  ["steps", "single_insight", "framework", "story", "listicle", "transformation"]

def validCtaTypes : List String :=
  ["follow", "comment", "share", "link", "none"]

/-- validate-skeleton (prompts.py lines 258-285): all required fields
present and nonempty, enum fields inside their closed vocabularies. -/
def validateSkeleton (s : Skel) : Bool :=
  presentNonempty s.video_id && presentNonempty s.hook &&
    presentNonempty s.hook_technique && presentNonempty s.value &&
    presentNonempty s.value_structure && presentNonempty s.cta &&
    presentNonempty s.cta_type &&
    validHookTechniques.contains (pyGetD s.hook_technique "") &&
    validValueStructures.contains (pyGetD s.value_structure "") &&
    validCtaTypes.contains (pyGetD s.cta_type "")

/-- find-original (extractor.py lines 319-324): first transcript of the
batch with this video id. -/
def findOriginal (batch : List TranscriptRec) (vid : String) :
    Option TranscriptRec :=
  batch.find? (fun t => t.video_id == vid)

/-- Enrichment of a validated skeleton (extractor.py lines 176-189): when
its video id matches a transcript of the batch, copy that transcript's
creator, platform, popularity snapshot and text, and stamp the extraction
time and model; otherwise the skeleton is left untouched. -/
def enrichSkeleton (env : ExtractEnv) (batch : List TranscriptRec)
    (s : Skel) : Skel :=
  match findOriginal batch (pyGetD s.video_id "") with
  | some orig =>
    { s with
      creator_username := some orig.username
      platform := some orig.platform
      views := some orig.views
      likes := some orig.likes
      url := some orig.url
      video_url := some orig.video_url
      transcript := some orig.transcript
      extracted_at := some env.now
      extraction_model := some env.modelId }
  | none => s

/-- Per-skeleton validation and collection loop over a parsed response
(extractor.py lines 171-195), starting from the result initialized with
total-attempts 1. -/
def processParsed (env : ExtractEnv) (batch : List TranscriptRec)
    (parsed : List Skel) : BatchResult :=
  parsed.foldl
    (fun res skl =>
      if validateSkeleton skl then
        { res with successful := res.successful ++ [enrichSkeleton env batch skl] }
      else
        { res with failed_video_ids :=
            res.failed_video_ids ++ [pyGetD skl.video_id ("unknown")] })
    { successful := [], failed_video_ids := [], total_attempts := 1 }

/-- Video id of the first batch element (extractor.py line 253). -/
def headVideoId : List TranscriptRec → String
  | t :: _ => t.video_id
  | [] => "unknown"

/-- extract-batch-with-retry together with handle-parse-failure
(extractor.py lines 133-257): send the batch; on a parse failure either
give up when the retry bound is reached, split the batch at the midpoint
and retry both halves at depth attempt+1, or mark a singleton batch failed;
on any other exception mark the whole batch failed. -/
def extractBatchWithRetry (env : ExtractEnv) (maxRetries : Nat)
    (batch : List TranscriptRec) (attempt : Nat) : BatchResult :=
  if batch = [] then { successful := [], failed_video_ids := [], total_attempts := 1 }
  else
    match env.respond batch attempt with
    | .ok parsed => processParsed env batch parsed
    | .err =>
      { successful := []
        failed_video_ids := batch.map (fun t => t.video_id)
        total_attempts := 1 }
    | .parseFail =>
      if maxRetries ≤ attempt then
        { successful := []
          failed_video_ids := batch.map (fun t => t.video_id)
          total_attempts := 0 }
      else if h : 1 < batch.length then
        let mid := batch.length / 2
        let r1 := extractBatchWithRetry env maxRetries (batch.take mid) (attempt + 1)
        let r2 := extractBatchWithRetry env maxRetries (batch.drop mid) (attempt + 1)
        { successful := r1.successful ++ r2.successful
          failed_video_ids := r1.failed_video_ids ++ r2.failed_video_ids
          total_attempts := r1.total_attempts + r2.total_attempts }
      else
        { successful := []
          failed_video_ids := [headVideoId batch]
          total_attempts := 0 }
termination_by batch.length
decreasing_by
  · simp only [List.length_take]
    omega
  · simp only [List.length_drop]
    omega

/-- create-batches (extractor.py lines 126-131): chunk the transcripts into
consecutive groups of the batch size. -/
def createBatches (bs : Nat) : List TranscriptRec → List (List TranscriptRec)
  | [] => []
  | t :: ts => (t :: ts.take (bs - 1)) :: createBatches bs (ts.drop (bs - 1))
termination_by ts => ts.length
decreasing_by
  simp only [List.length_drop, List.length_cons]
  omega

/-- Merging a batch result into the accumulated result (extractor.py lines
110-112). -/
def mergeBatchResults (acc br : BatchResult) : BatchResult :=
  { successful := acc.successful ++ br.successful
    failed_video_ids := acc.failed_video_ids ++ br.failed_video_ids
    total_attempts := acc.total_attempts + br.total_attempts }

/-- extract-all (extractor.py lines 82-124): clamp the batch size to 1-5 as
the constructor does, chunk, and process each batch with the retrying
extractor at depth 0. -/
def extractAll (env : ExtractEnv) (maxRetries bsArg : Nat)
    (ts : List TranscriptRec) : BatchResult :=
  let bs := min (max bsArg 1) 5
  (createBatches bs ts).foldl
    (fun acc b => mergeBatchResults acc (extractBatchWithRetry env maxRetries b 0))
    { successful := [], failed_video_ids := [], total_attempts := 0 }

/-! ### Split-and-retry behaviour on parse failures (C2) -/

theorem extract_respond_congr (env : ExtractEnv) (maxRetries : Nat) :
    ∀ n (batch : List TranscriptRec), batch.length ≤ n →
      ∀ (f : List TranscriptRec → Nat → LLMOutcome) (attempt : Nat),
        f batch attempt = env.respond batch attempt →
        (∀ b d, b.length < batch.length → f b d = env.respond b d) →
        extractBatchWithRetry { env with respond := f } maxRetries batch attempt =
          extractBatchWithRetry env maxRetries batch attempt := by
  intro n
  induction n with
  | zero =>
    intro batch hlen f attempt _ _
    have hb : batch = [] := List.eq_nil_of_length_eq_zero (Nat.le_zero.mp hlen)
    subst hb
    simp [extractBatchWithRetry]
  | succ n ih =>
    intro batch hlen f attempt hf hlow
    by_cases hb : batch = []
    · subst hb
      simp [extractBatchWithRetry]
    · unfold extractBatchWithRetry
      rw [if_neg hb, if_neg hb]
      have hfr : ({ env with respond := f } : ExtractEnv).respond batch attempt =
          env.respond batch attempt := hf
      rw [hfr]
      cases hres : env.respond batch attempt with
      | ok parsed => rfl
      | err => rfl
      | parseFail =>
        by_cases hmax : maxRetries ≤ attempt
        · rw [if_pos hmax, if_pos hmax]
        · rw [if_neg hmax, if_neg hmax]
          by_cases h1 : 1 < batch.length
          · rw [dif_pos h1, dif_pos h1]
            have htk : (batch.take (batch.length / 2)).length < batch.length := by
              simp only [List.length_take]
              omega
            have hdp : (batch.drop (batch.length / 2)).length < batch.length := by
              simp only [List.length_drop]
              omega
            have e1 := ih (batch.take (batch.length / 2)) (by omega) f (attempt + 1)
              (hlow _ _ htk) (fun b d hbd => hlow b d (lt_trans hbd htk))
            have e2 := ih (batch.drop (batch.length / 2)) (by omega) f (attempt + 1)
              (hlow _ _ hdp) (fun b d hbd => hlow b d (lt_trans hbd hdp))
            simp only [e1, e2]
          · rw [dif_neg h1, dif_neg h1]

/-- C2: when the LLM response for a batch fails to parse as JSON, the
extractor never resubmits the batch whole (the outcome does not depend on
what the oracle would answer to any other submission of that same batch);
a batch of more than one element below the retry bound is split at the
midpoint and each half retried independently at depth attempt+1; a batch of
exactly one element has its video id appended to the failed ids and is not
retried. -/
theorem C2_parse_failure_split (env : ExtractEnv) (maxRetries : Nat)
    (batch : List TranscriptRec) (attempt : Nat)
    (hfail : env.respond batch attempt = .parseFail) :
    (batch.length = 1 →
      extractBatchWithRetry env maxRetries batch attempt =
        { successful := [], failed_video_ids := [headVideoId batch]
          total_attempts := 0 }) ∧
      (1 < batch.length → attempt < maxRetries →
        extractBatchWithRetry env maxRetries batch attempt =
          mergeBatchResults
            (extractBatchWithRetry env maxRetries
              (batch.take (batch.length / 2)) (attempt + 1))
            (extractBatchWithRetry env maxRetries
              (batch.drop (batch.length / 2)) (attempt + 1))) ∧
      (∀ f, f batch attempt = .parseFail →
        (∀ b d, b ≠ batch → f b d = env.respond b d) →
        extractBatchWithRetry { env with respond := f } maxRetries batch attempt =
          extractBatchWithRetry env maxRetries batch attempt) := by
  refine ⟨?_, ?_, ?_⟩
  · intro hone
    obtain ⟨t, rfl⟩ : ∃ t, batch = [t] := by
      cases batch with
      | nil => simp at hone
      | cons t rest =>
        cases rest with
        | nil => exact ⟨t, rfl⟩
        | cons u us => simp at hone
    unfold extractBatchWithRetry
    rw [if_neg (by simp), hfail]
    by_cases hmax : maxRetries ≤ attempt
    · simp only [if_pos hmax]
      simp [headVideoId]
    · simp only [if_neg hmax]
      rw [dif_neg (by simp)]
  · intro h1 hlt
    have hb : batch ≠ [] := by
      intro hnil
      rw [hnil] at h1
      simp at h1
    conv_lhs => rw [extractBatchWithRetry]
    rw [if_neg hb, hfail, if_neg (by omega), dif_pos h1]
    rfl
  · intro f hffail hne
    apply extract_respond_congr env maxRetries batch.length batch le_rfl f attempt
    · rw [hffail, hfail]
    · intro b d hblen
      exact hne b d (by
        intro heq
        rw [heq] at hblen
        exact lt_irrefl _ hblen)

/-- Transcripts for the C2 witness batch. -/
def c2T1 : TranscriptRec :=
  { video_id := "a1", username := "alice", platform := "instagram"
    views := 10, likes := 1, url := "", video_url := ""
    transcript := sampleValidText, from_cache := false }

def c2T2 : TranscriptRec :=
  { video_id := "a2", username := "alice", platform := "instagram"
    views := 20, likes := 2, url := "", video_url := ""
    transcript := sampleValidText, from_cache := false }

/-- An extraction oracle that always fails to parse. -/
def c2Env : ExtractEnv :=
  { respond := fun _ _ => .parseFail, now := "t0", modelId := "openai/gpt-4o-mini" }

/-- Witness for C2 at a two-element batch, depth 0, default retry bound 2. -/
theorem C2_witness :
    (([c2T1, c2T2] : List TranscriptRec).length = 1 →
      extractBatchWithRetry c2Env 2 [c2T1, c2T2] 0 =
        { successful := [], failed_video_ids := [headVideoId [c2T1, c2T2]]
          total_attempts := 0 }) ∧
      (1 < ([c2T1, c2T2] : List TranscriptRec).length → 0 < 2 →
        extractBatchWithRetry c2Env 2 [c2T1, c2T2] 0 =
          mergeBatchResults
            (extractBatchWithRetry c2Env 2
              (([c2T1, c2T2] : List TranscriptRec).take
                (([c2T1, c2T2] : List TranscriptRec).length / 2)) 1)
            (extractBatchWithRetry c2Env 2
              (([c2T1, c2T2] : List TranscriptRec).drop
                (([c2T1, c2T2] : List TranscriptRec).length / 2)) 1)) ∧
      (∀ f, f [c2T1, c2T2] 0 = .parseFail →
        (∀ b d, b ≠ [c2T1, c2T2] → f b d = c2Env.respond b d) →
        extractBatchWithRetry { c2Env with respond := f } 2 [c2T1, c2T2] 0 =
          extractBatchWithRetry c2Env 2 [c2T1, c2T2] 0) :=
  C2_parse_failure_split c2Env 2 [c2T1, c2T2] 0 rfl

/-! ### Origin and enrichment of successful records (C7) -/

theorem validate_enrichSkeleton (env : ExtractEnv) (batch : List TranscriptRec)
    (raw : Skel) :
    validateSkeleton (enrichSkeleton env batch raw) = validateSkeleton raw := by
  unfold enrichSkeleton
  cases findOriginal batch (pyGetD raw.video_id "") with
  | some orig => rfl
  | none => rfl

theorem processParsed_successful_mem (env : ExtractEnv)
    (batch : List TranscriptRec) :
    ∀ (parsed : List Skel) (acc : BatchResult) (s : Skel),
      s ∈ (parsed.foldl
        (fun res skl =>
          if validateSkeleton skl then
            { res with successful := res.successful ++ [enrichSkeleton env batch skl] }
          else
            { res with failed_video_ids :=
                res.failed_video_ids ++ [pyGetD skl.video_id ("unknown")] })
        acc).successful →
      s ∈ acc.successful ∨
        ∃ raw ∈ parsed, validateSkeleton raw = true ∧
          s = enrichSkeleton env batch raw := by
  intro parsed
  induction parsed with
  | nil =>
    intro acc s hs
    exact Or.inl hs
  | cons skl rest ih =>
    intro acc s hs
    simp only [List.foldl_cons] at hs
    by_cases hv : validateSkeleton skl
    · rw [if_pos hv] at hs
      rcases ih _ s hs with hacc | ⟨raw, hraw, hvr, hsr⟩
      · simp only [List.mem_append, List.mem_singleton] at hacc
        rcases hacc with hin | hnew
        · exact Or.inl hin
        · exact Or.inr ⟨skl, by simp, hv, hnew⟩
      · exact Or.inr ⟨raw, by simp [hraw], hvr, hsr⟩
    · rw [if_neg hv] at hs
      rcases ih _ s hs with hacc | ⟨raw, hraw, hvr, hsr⟩
      · exact Or.inl hacc
      · exact Or.inr ⟨raw, by simp [hraw], hvr, hsr⟩

theorem extract_successful_shape (env : ExtractEnv) (maxRetries : Nat) :
    ∀ n (batch : List TranscriptRec), batch.length ≤ n →
      ∀ (attempt : Nat) (s : Skel),
        s ∈ (extractBatchWithRetry env maxRetries batch attempt).successful →
        ∃ sub, sub.Sublist batch ∧
          ∃ raw, validateSkeleton raw = true ∧ s = enrichSkeleton env sub raw := by
  intro n
  induction n with
  | zero =>
    intro batch hlen attempt s hs
    have hb : batch = [] := List.eq_nil_of_length_eq_zero (Nat.le_zero.mp hlen)
    subst hb
    simp [extractBatchWithRetry] at hs
  | succ n ih =>
    intro batch hlen attempt s hs
    by_cases hb : batch = []
    · subst hb
      simp [extractBatchWithRetry] at hs
    · rw [extractBatchWithRetry] at hs
      rw [if_neg hb] at hs
      cases hres : env.respond batch attempt with
      | ok parsed =>
        rw [hres] at hs
        simp only at hs
        rcases processParsed_successful_mem env batch parsed _ s hs with
          hacc | ⟨raw, _, hvr, hsr⟩
        · simp at hacc
        · exact ⟨batch, List.Sublist.refl batch, raw, hvr, hsr⟩
      | err =>
        rw [hres] at hs
        simp at hs
      | parseFail =>
        rw [hres] at hs
        by_cases hmax : maxRetries ≤ attempt
        · rw [if_pos hmax] at hs
          simp at hs
        · rw [if_neg hmax] at hs
          by_cases h1 : 1 < batch.length
          · rw [dif_pos h1] at hs
            simp only [List.mem_append] at hs
            have htk : (batch.take (batch.length / 2)).length ≤ n := by
              simp only [List.length_take]
              omega
            have hdp : (batch.drop (batch.length / 2)).length ≤ n := by
              simp only [List.length_drop]
              omega
            rcases hs with hs1 | hs2
            · obtain ⟨sub, hsub, raw, hvr, hsr⟩ := ih _ htk (attempt + 1) s hs1
              exact ⟨sub, hsub.trans (List.take_sublist _ _), raw, hvr, hsr⟩
            · obtain ⟨sub, hsub, raw, hvr, hsr⟩ := ih _ hdp (attempt + 1) s hs2
              exact ⟨sub, hsub.trans (List.drop_sublist _ _), raw, hvr, hsr⟩
          · rw [dif_neg h1] at hs
            simp at hs

theorem createBatches_sublist (bs : Nat) :
    ∀ n (ts : List TranscriptRec), ts.length ≤ n →
      ∀ b ∈ createBatches bs ts, b.Sublist ts := by
  intro n
  induction n with
  | zero =>
    intro ts hlen b hb
    have : ts = [] := List.eq_nil_of_length_eq_zero (Nat.le_zero.mp hlen)
    subst this
    simp [createBatches] at hb
  | succ n ih =>
    intro ts hlen b hb
    cases ts with
    | nil => simp [createBatches] at hb
    | cons t rest =>
      rw [createBatches] at hb
      rcases List.mem_cons.mp hb with hfirst | hrest
      · subst hfirst
        have : t :: rest.take (bs - 1) = (t :: rest).take ((bs - 1) + 1) := by
          simp [List.take_cons]
        rw [this]
        exact List.take_sublist _ _
      · have hdlen : (rest.drop (bs - 1)).length ≤ n := by
          simp only [List.length_drop]
          simp only [List.length_cons] at hlen
          omega
        have hsub := ih _ hdlen b hrest
        exact hsub.trans ((List.drop_sublist _ _).trans (List.sublist_cons_self t rest))

theorem extractAll_fold_mem (env : ExtractEnv) (maxRetries : Nat) :
    ∀ (batches : List (List TranscriptRec)) (acc : BatchResult) (s : Skel),
      s ∈ (batches.foldl
        (fun acc b => mergeBatchResults acc (extractBatchWithRetry env maxRetries b 0))
        acc).successful →
      s ∈ acc.successful ∨
        ∃ b ∈ batches, s ∈ (extractBatchWithRetry env maxRetries b 0).successful := by
  intro batches
  induction batches with
  | nil =>
    intro acc s hs
    exact Or.inl hs
  | cons b rest ih =>
    intro acc s hs
    simp only [List.foldl_cons] at hs
    rcases ih _ s hs with hacc | ⟨b', hb', hsb'⟩
    · simp only [mergeBatchResults, List.mem_append] at hacc
      rcases hacc with hin | hnew
      · exact Or.inl hin
      · exact Or.inr ⟨b, by simp, hnew⟩
    · exact Or.inr ⟨b', by simp [hb'], hsb'⟩

/-- C7 (amended): every skeleton extract-all places on the successful list
passed per-record field validation, and equals the enrichment of a
validated parsed skeleton against the (sub)batch it was extracted from:
when the first transcript of that batch with a matching video id exists,
the record carries that transcript's creator, platform, views and likes;
when no transcript of the batch matches, the skeleton is appended without
any enrichment, so the 1:1 correspondence claimed for video ids is not
enforced. -/
theorem C7_amended (env : ExtractEnv) (maxRetries bsArg : Nat)
    (ts : List TranscriptRec) (s : Skel)
    (hs : s ∈ (extractAll env maxRetries bsArg ts).successful) :
    validateSkeleton s = true ∧
      ∃ sub, sub.Sublist ts ∧
        ∃ raw, validateSkeleton raw = true ∧ s = enrichSkeleton env sub raw := by
  unfold extractAll at hs
  rcases extractAll_fold_mem env maxRetries _ _ s hs with hacc | ⟨b, hb, hsb⟩
  · simp at hacc
  · obtain ⟨sub, hsub, raw, hvr, hsr⟩ :=
      extract_successful_shape env maxRetries b.length b le_rfl 0 s hsb
    have hbts : b.Sublist ts :=
      createBatches_sublist _ ts.length ts le_rfl b hb
    refine ⟨?_, sub, hsub.trans hbts, raw, hvr, hsr⟩
    rw [hsr, validate_enrichSkeleton, hvr]

/-- A transcript with video id a1 used for the C7 scenarios. -/
def c7T1 : TranscriptRec :=
  { video_id := "a1", username := "alice", platform := "instagram"
    views := 7, likes := 3, url := "", video_url := ""
    transcript := sampleValidText, from_cache := false }

/-- A fully valid parsed skeleton whose video id b9 matches no transcript
of the batch. -/
def c7StraySkel : Skel :=
  { video_id := some "b9"
    hook := some "hook text"
    hook_technique := some "curiosity"
    value := some "value text"
    value_structure := some "steps"
    cta := some "cta text"
    cta_type := some "none" }

/-- Oracle returning the stray skeleton for every request. -/
def c7Env : ExtractEnv :=
  { respond := fun _ _ => .ok [c7StraySkel]
    now := "t0"
    modelId := "openai/gpt-4o-mini" }

/-- C7 counterexample: extract-all on the single transcript a1 receives a
validated skeleton whose video id b9 matches no transcript in its batch;
the skeleton is still placed on the successful list, and without any
enrichment (no creator, no platform, no popularity snapshot).  The claimed
1:1 video id correspondence and unconditional enrichment fail. -/
theorem C7_counterexample :
    (extractAll c7Env 2 4 [c7T1]).successful = [c7StraySkel] ∧
      c7StraySkel.video_id = some "b9" ∧
      (∀ t ∈ [c7T1], ¬ t.video_id = "b9") ∧
      c7StraySkel.creator_username = none ∧
      c7StraySkel.views = none := by
  refine ⟨?_, rfl, by decide, rfl, rfl⟩
  simp [extractAll, createBatches.eq_def, extractBatchWithRetry, processParsed,
    enrichSkeleton, findOriginal, validateSkeleton, presentNonempty, pyGetD,
    validHookTechniques, validValueStructures, validCtaTypes,
    mergeBatchResults, c7Env, c7StraySkel, c7T1]

/-- Witness for C7 amended: the stray skeleton really is on the successful
list for the concrete run used above. -/
theorem C7_witness :
    validateSkeleton c7StraySkel = true ∧
      ∃ sub, sub.Sublist [c7T1] ∧
        ∃ raw, validateSkeleton raw = true ∧
          c7StraySkel = enrichSkeleton c7Env sub raw := by
  have hmem : c7StraySkel ∈ (extractAll c7Env 2 4 [c7T1]).successful := by
    simp [extractAll, createBatches.eq_def, extractBatchWithRetry, processParsed,
      enrichSkeleton, findOriginal, validateSkeleton, presentNonempty, pyGetD,
      validHookTechniques, validValueStructures, validCtaTypes,
      mergeBatchResults, c7Env, c7StraySkel, c7T1]
  exact C7_amended c7Env 2 4 [c7T1] c7StraySkel hmem

/-! ## Aggregator (src/skeleton_ripper/aggregator.py)

Pure transformation.  The frequency-distribution dicts are modelled as
functions from the field value to its count (a key absent from the Python
dict corresponds to count 0). -/

/-- skeleton.get of the aggregator, with the defaults of aggregator.py. -/
def creatorOf (s : Skel) : String := pyGetD s.creator_username "unknown"

def platformOf (s : Skel) : String := pyGetD s.platform "unknown"

def viewsOf (s : Skel) : Int := s.views.getD 0

def likesOf (s : Skel) : Int := s.likes.getD 0

def hookWcOf (s : Skel) : ℚ := s.hook_word_count.getD 0

def totalWcOf (s : Skel) : ℚ := s.total_word_count.getD 0

def durationOf (s : Skel) : ℚ := s.estimated_duration_seconds.getD 0

def hookTechOf (s : Skel) : String := pyGetD s.hook_technique "unknown"

def valueStructOf (s : Skel) : String := pyGetD s.value_structure "unknown"

def ctaTypeOf (s : Skel) : String := pyGetD s.cta_type "unknown"

/-- safe-mean (aggregator.py lines 184-187): keep only truthy positive
values, return their mean, or 0 when none remain.  statistics.mean computes
the exact fraction, so rationals model it faithfully. -/
def safeMean (vs : List ℚ) : ℚ :=
  let filtered := vs.filter (fun v => decide (v ≠ 0) && decide (0 < v))
  if filtered = [] then 0 else filtered.sum / filtered.length

/-- count-values (aggregator.py lines 176-182) as a function from field
value to occurrence count. -/
def countValues (skeletons : List Skel) (fieldOf : Skel → String) :
    String → Nat :=
  fun v => skeletons.countP (fun s => fieldOf s == v)

/-- One step of the defaultdict(list) grouping: append the skeleton to its
creator's group, keeping first-appearance key order as a Python dict does. -/
def insertGrouped : List (String × List Skel) → String → Skel →
    List (String × List Skel)
  | [], u, s => [(u, [s])]
  | (k, g) :: rest, u, s =>
    if k = u then (k, g ++ [s]) :: rest
    else (k, g) :: insertGrouped rest u s

/-- group-by-creator (aggregator.py lines 140-146). -/
def groupByCreator (skeletons : List Skel) : List (String × List Skel) :=
  skeletons.foldl (fun acc s => insertGrouped acc (creatorOf s) s) []

/-- CreatorStats (aggregator.py lines 22-41). -/
structure CreatorStats where
  username : String
  platform : String
  video_count : Nat
  total_views : Int
  total_likes : Int
  avg_views : ℚ
  avg_likes : ℚ
  avg_hook_word_count : ℚ
  avg_total_word_count : ℚ
  avg_duration_seconds : ℚ
  hook_techniques : String → Nat
  value_structures : String → Nat
  cta_types : String → Nat

/-- calculate-creator-stats (aggregator.py lines 148-174). -/
def calcCreatorStats (username : String) (skeletons : List Skel) :
    CreatorStats :=
  { username := username
    platform := match skeletons with
      | s :: _ => platformOf s
      | [] => "unknown"
    video_count := skeletons.length
    total_views := (skeletons.map viewsOf).sum
    total_likes := (skeletons.map likesOf).sum
    avg_views :=
      if 0 < skeletons.length then
        ((skeletons.map viewsOf).sum : ℚ) / skeletons.length
      else 0
    avg_likes :=
      if 0 < skeletons.length then
        ((skeletons.map likesOf).sum : ℚ) / skeletons.length
      else 0
    avg_hook_word_count := safeMean (skeletons.map hookWcOf)
    avg_total_word_count := safeMean (skeletons.map totalWcOf)
    avg_duration_seconds := safeMean (skeletons.map durationOf)
    hook_techniques := countValues skeletons hookTechOf
    value_structures := countValues skeletons valueStructOf
    cta_types := countValues skeletons ctaTypeOf }

/-- AggregatedData (aggregator.py lines 44-61). -/
structure AggregatedData where
  skeletons : List Skel
  creator_stats : List CreatorStats
  total_videos : Nat
  total_views : Int
  valid_skeletons : Nat
  overall_hook_techniques : String → Nat := fun _ => 0
  overall_value_structures : String → Nat := fun _ => 0
  overall_cta_types : String → Nat := fun _ => 0
  avg_hook_word_count : ℚ := 0
  avg_total_word_count : ℚ := 0
  avg_duration_seconds : ℚ := 0

/-- aggregate (aggregator.py lines 79-138): early zero-valued return on
empty input, otherwise group by creator and compute per-creator and overall
statistics. -/
def aggregate (skeletons : List Skel) : AggregatedData :=
  if skeletons = [] then
    { skeletons := []
      creator_stats := []
      total_videos := 0
      total_views := 0
      valid_skeletons := 0 }
  else
    let byCreator := groupByCreator skeletons
    { skeletons := skeletons
      creator_stats := byCreator.map (fun p => calcCreatorStats p.fst p.snd)
      total_videos := skeletons.length
      total_views := (skeletons.map viewsOf).sum
      valid_skeletons := skeletons.length
      overall_hook_techniques := countValues skeletons hookTechOf
      overall_value_structures := countValues skeletons valueStructOf
      overall_cta_types := countValues skeletons ctaTypeOf
      avg_hook_word_count := safeMean (skeletons.map hookWcOf)
      avg_total_word_count := safeMean (skeletons.map totalWcOf)
      avg_duration_seconds := safeMean (skeletons.map durationOf) }

/-- The per-creator statistics entry for a given username, as a consumer
would read it off creator-stats. -/
def statsFor (a : AggregatedData) (u : String) : Option CreatorStats :=
  a.creator_stats.find? (fun cs => cs.username == u)

/-- Lookup in the grouped association list. -/
def lookupGroup : List (String × List Skel) → String → Option (List Skel)
  | [], _ => none
  | (k, g) :: rest, u => if k = u then some g else lookupGroup rest u

/-! ### Order independence of aggregation (C9) -/

/-- Effect of one grouping step on lookups. -/
theorem lookupGroup_insertGrouped (acc : List (String × List Skel))
    (u : String) (s : Skel) (w : String) :
    lookupGroup (insertGrouped acc u s) w =
      if w = u then some ((lookupGroup acc u).getD [] ++ [s])
      else lookupGroup acc w := by
  induction acc with
  | nil =>
    by_cases hw : w = u
    · simp [insertGrouped, lookupGroup, hw]
    · have hw2 : ¬u = w := fun h => hw h.symm
      simp [insertGrouped, lookupGroup, hw, hw2]
  | cons hd rest ih =>
    obtain ⟨k, g⟩ := hd
    by_cases hk : k = u
    · subst hk
      by_cases hw : w = k
      · simp [insertGrouped, lookupGroup, hw]
      · have hw2 : ¬k = w := fun h => hw h.symm
        simp [insertGrouped, lookupGroup, hw, hw2]
    · by_cases hkw : k = w
      · subst hkw
        simp [insertGrouped, lookupGroup, hk]
      · simp [insertGrouped, lookupGroup, hk, hkw, ih]

/-- Combining an already-collected group with the contribution of the
remaining skeletons. -/
def combineGroup : Option (List Skel) → List Skel → Option (List Skel)
  | some g, f => some (g ++ f)
  | none, f => if f = [] then none else some f

theorem combineGroup_nil (o : Option (List Skel)) : combineGroup o [] = o := by
  cases o <;> simp [combineGroup]

theorem lookupGroup_foldl (u : String) :
    ∀ (l : List Skel) (acc : List (String × List Skel)),
      lookupGroup (l.foldl (fun acc s => insertGrouped acc (creatorOf s) s) acc) u =
        combineGroup (lookupGroup acc u)
          (l.filter (fun s => creatorOf s == u)) := by
  intro l
  induction l with
  | nil =>
    intro acc
    simp [combineGroup_nil]
  | cons s rest ih =>
    intro acc
    simp only [List.foldl_cons]
    rw [ih]
    by_cases hc : creatorOf s = u
    · have hfil : (s :: rest).filter (fun x => creatorOf x == u) =
          s :: rest.filter (fun x => creatorOf x == u) := by
        simp [List.filter_cons, hc]
      rw [hfil, lookupGroup_insertGrouped, if_pos hc.symm, hc]
      cases hacc : lookupGroup acc u with
      | some g => simp [combineGroup]
      | none => simp [combineGroup]
    · have hfil : (s :: rest).filter (fun x => creatorOf x == u) =
          rest.filter (fun x => creatorOf x == u) := by
        simp [List.filter_cons, hc]
      rw [hfil, lookupGroup_insertGrouped, if_neg (fun h => hc h.symm)]

theorem find?_map_calc :
    ∀ (groups : List (String × List Skel)) (u : String),
      ((groups.map (fun p => calcCreatorStats p.fst p.snd)).find?
          (fun cs => cs.username == u)) =
        (lookupGroup groups u).map (fun g => calcCreatorStats u g) := by
  intro groups
  induction groups with
  | nil => intro u; simp [lookupGroup]
  | cons hd rest ih =>
    intro u
    obtain ⟨k, g⟩ := hd
    by_cases hk : k = u
    · subst hk
      simp only [List.map_cons]
      rw [List.find?_cons_of_pos _ (by simp [calcCreatorStats])]
      simp [lookupGroup]
    · simp only [List.map_cons]
      rw [List.find?_cons_of_neg _ (by simp [calcCreatorStats, hk])]
      simp [lookupGroup, hk, ih]

/-- The per-creator entry of aggregate is the stats of the creator's
filtered group. -/
theorem statsFor_aggregate (l : List Skel) (u : String) (hl : l ≠ []) :
    statsFor (aggregate l) u =
      (if l.filter (fun s => creatorOf s == u) = [] then none
       else some (calcCreatorStats u (l.filter (fun s => creatorOf s == u)))) := by
  unfold statsFor aggregate
  rw [if_neg hl]
  simp only
  rw [find?_map_calc]
  unfold groupByCreator
  rw [lookupGroup_foldl]
  simp only [lookupGroup, combineGroup]
  by_cases hf : l.filter (fun s => creatorOf s == u) = [] <;> simp [hf]

theorem safeMean_perm {vs vs' : List ℚ} (h : vs.Perm vs') :
    safeMean vs = safeMean vs' := by
  unfold safeMean
  have hf := h.filter (fun v => decide (v ≠ 0) && decide (0 < v))
  by_cases he : vs.filter (fun v => decide (v ≠ 0) && decide (0 < v)) = []
  · rw [he] at hf
    rw [he, hf.nil_eq.symm]
  · have he' : vs'.filter (fun v => decide (v ≠ 0) && decide (0 < v)) ≠ [] := by
      intro hnil
      rw [hnil] at hf
      exact he hf.eq_nil
    simp only [if_neg he, if_neg he', hf.sum_eq, hf.length_eq]

theorem countValues_perm {l l' : List Skel} (h : l.Perm l')
    (fieldOf : Skel → String) : countValues l fieldOf = countValues l' fieldOf :=
  funext fun v => h.countP_eq (fun s => fieldOf s == v)

/-- The fields of CreatorStats the spec calls statistics: count, totals,
averages and the three distributions (the platform label is taken from the
group's first element and is not among them). -/
structure CreatorCore where
  video_count : Nat
  total_views : Int
  total_likes : Int
  avg_views : ℚ
  avg_likes : ℚ
  avg_hook_word_count : ℚ
  avg_total_word_count : ℚ
  avg_duration_seconds : ℚ
  hook_techniques : String → Nat
  value_structures : String → Nat
  cta_types : String → Nat

def CreatorStats.core (cs : CreatorStats) : CreatorCore :=
  { video_count := cs.video_count
    total_views := cs.total_views
    total_likes := cs.total_likes
    avg_views := cs.avg_views
    avg_likes := cs.avg_likes
    avg_hook_word_count := cs.avg_hook_word_count
    avg_total_word_count := cs.avg_total_word_count
    avg_duration_seconds := cs.avg_duration_seconds
    hook_techniques := cs.hook_techniques
    value_structures := cs.value_structures
    cta_types := cs.cta_types }

theorem calcCreatorStats_core_perm (u : String) {g g' : List Skel}
    (h : g.Perm g') :
    (calcCreatorStats u g).core = (calcCreatorStats u g').core := by
  unfold calcCreatorStats CreatorStats.core
  simp only [CreatorCore.mk.injEq]
  refine ⟨h.length_eq, (h.map viewsOf).sum_eq, (h.map likesOf).sum_eq,
    ?_, ?_, safeMean_perm (h.map hookWcOf), safeMean_perm (h.map totalWcOf),
    safeMean_perm (h.map durationOf), countValues_perm h hookTechOf,
    countValues_perm h valueStructOf, countValues_perm h ctaTypeOf⟩
  · rw [h.length_eq, (h.map viewsOf).sum_eq]
  · rw [h.length_eq, (h.map likesOf).sum_eq]

/-- C9: aggregation is order independent.  Permuting the input produces,
for every creator, the same count, totals, averages and distributions, and
the same overall statistics (total videos and views, valid-skeleton count,
the three overall distributions and the three overall averages). -/
theorem C9_aggregate_perm (l l' : List Skel) (hperm : l.Perm l') :
    (∀ u, (statsFor (aggregate l) u).map CreatorStats.core =
        (statsFor (aggregate l') u).map CreatorStats.core) ∧
      (aggregate l).total_videos = (aggregate l').total_videos ∧
      (aggregate l).total_views = (aggregate l').total_views ∧
      (aggregate l).valid_skeletons = (aggregate l').valid_skeletons ∧
      (aggregate l).overall_hook_techniques =
        (aggregate l').overall_hook_techniques ∧
      (aggregate l).overall_value_structures =
        (aggregate l').overall_value_structures ∧
      (aggregate l).overall_cta_types = (aggregate l').overall_cta_types ∧
      (aggregate l).avg_hook_word_count = (aggregate l').avg_hook_word_count ∧
      (aggregate l).avg_total_word_count = (aggregate l').avg_total_word_count ∧
      (aggregate l).avg_duration_seconds = (aggregate l').avg_duration_seconds := by
  by_cases hl : l = []
  · have hl' : l' = [] := by
      subst hl
      exact hperm.nil_eq.symm
    subst hl
    subst hl'
    exact ⟨fun u => rfl, rfl, rfl, rfl, rfl, rfl, rfl, rfl, rfl, rfl⟩
  · have hl' : l' ≠ [] := by
      intro hnil
      rw [hnil] at hperm
      exact hl hperm.eq_nil
    refine ⟨?_, ?_, ?_, ?_, ?_, ?_, ?_, ?_, ?_, ?_⟩
    · intro u
      rw [statsFor_aggregate l u hl, statsFor_aggregate l' u hl']
      have hfp := hperm.filter (fun s => creatorOf s == u)
      by_cases hfe : l.filter (fun s => creatorOf s == u) = []
      · rw [hfe] at hfp
        rw [hfe, hfp.nil_eq.symm]
      · have hfe' : l'.filter (fun s => creatorOf s == u) ≠ [] := by
          intro hnil
          rw [hnil] at hfp
          exact hfe hfp.eq_nil
        rw [if_neg hfe, if_neg hfe']
        simp [calcCreatorStats_core_perm u hfp]
    · simp [aggregate, hl, hl', hperm.length_eq]
    · simp [aggregate, hl, hl', (hperm.map viewsOf).sum_eq]
    · simp [aggregate, hl, hl', hperm.length_eq]
    · simp [aggregate, hl, hl', countValues_perm hperm hookTechOf]
    · simp [aggregate, hl, hl', countValues_perm hperm valueStructOf]
    · simp [aggregate, hl, hl', countValues_perm hperm ctaTypeOf]
    · simp [aggregate, hl, hl', safeMean_perm (hperm.map hookWcOf)]
    · simp [aggregate, hl, hl', safeMean_perm (hperm.map totalWcOf)]
    · simp [aggregate, hl, hl', safeMean_perm (hperm.map durationOf)]

/-- Skeletons for the C9 witness: two creators, concrete values. -/
def c9S1 : Skel :=
  { video_id := some "a1", hook := some "h1", hook_technique := some "curiosity"
    hook_word_count := some 5, value := some "v1", value_structure := some "steps"
    cta := some "c1", cta_type := some "none", total_word_count := some 80
    estimated_duration_seconds := some 30, creator_username := some "alice"
    platform := some "instagram", views := some 100, likes := some 10 }

def c9S2 : Skel :=
  { video_id := some "b1", hook := some "h2", hook_technique := some "contrast"
    hook_word_count := some 7, value := some "v2", value_structure := some "story"
    cta := some "c2", cta_type := some "follow", total_word_count := some 120
    estimated_duration_seconds := some 45, creator_username := some "bob"
    platform := some "instagram", views := some 200, likes := some 20 }

/-- Witness for C9 at a concrete two-element permutation. -/
theorem C9_witness :
    ([c9S1, c9S2] : List Skel).Perm [c9S2, c9S1] ∧
      (∀ u, (statsFor (aggregate [c9S1, c9S2]) u).map CreatorStats.core =
        (statsFor (aggregate [c9S2, c9S1]) u).map CreatorStats.core) ∧
      (aggregate [c9S1, c9S2]).avg_hook_word_count =
        (aggregate [c9S2, c9S1]).avg_hook_word_count :=
  ⟨by decide, (C9_aggregate_perm [c9S1, c9S2] [c9S2, c9S1] (by decide)).1,
    (C9_aggregate_perm [c9S1, c9S2] [c9S2, c9S1] (by decide)).2.2.2.2.2.2.2.1⟩

/-! ### Averages and the division guard (C10) -/

/-- Arithmetic mean over the strictly positive values of a list, 0 when
none: the quantity the implemented averages actually compute. -/
def posMean (vs : List ℚ) : ℚ :=
  let pos := vs.filter (fun v => decide (0 < v))
  if pos = [] then 0 else pos.sum / pos.length

theorem safeMean_eq_posMean (vs : List ℚ) : safeMean vs = posMean vs := by
  unfold safeMean posMean
  have hfc : vs.filter (fun v => decide (v ≠ 0) && decide (0 < v)) =
      vs.filter (fun v => decide (0 < v)) := by
    apply List.filter_congr
    intro v _
    by_cases h : 0 < v
    · simp [h, ne_of_gt h]
    · simp [h]
  rw [hfc]

/-- C10 (amended): every average aggregate computes (overall and per
creator) equals the arithmetic mean of the strictly positive values of the
corresponding field over the group - records whose value is 0 or missing
are excluded from numerator and denominator, rather than averaged over all
records - and is 0 when no positive value exists; empty input yields the
zero-valued AggregatedData without any division. -/
theorem C10_averages (l : List Skel) :
    aggregate ([] : List Skel) =
        { skeletons := [], creator_stats := [], total_videos := 0
          total_views := 0, valid_skeletons := 0 } ∧
      ((aggregate l).avg_hook_word_count = posMean (l.map hookWcOf) ∧
        (aggregate l).avg_total_word_count = posMean (l.map totalWcOf) ∧
        (aggregate l).avg_duration_seconds = posMean (l.map durationOf)) ∧
      (∀ u, l.filter (fun s => creatorOf s == u) ≠ [] →
        (statsFor (aggregate l) u).map (fun cs =>
            (cs.avg_hook_word_count, cs.avg_total_word_count,
              cs.avg_duration_seconds)) =
          some (posMean ((l.filter (fun s => creatorOf s == u)).map hookWcOf),
            posMean ((l.filter (fun s => creatorOf s == u)).map totalWcOf),
            posMean ((l.filter (fun s => creatorOf s == u)).map durationOf))) := by
  refine ⟨rfl, ?_, ?_⟩
  · by_cases hl : l = []
    · subst hl
      refine ⟨rfl, rfl, rfl⟩
    · simp [aggregate, hl, safeMean_eq_posMean]
  · intro u hfe
    have hl : l ≠ [] := by
      intro hnil
      rw [hnil] at hfe
      simp at hfe
    rw [statsFor_aggregate l u hl, if_neg hfe]
    simp [calcCreatorStats, safeMean_eq_posMean]

/-- Two same-creator skeletons whose hook word counts are 4 and 0. -/
def c10A : Skel :=
  { video_id := some "a1", hook := some "h1", hook_technique := some "curiosity"
    hook_word_count := some 4, value := some "v1", value_structure := some "steps"
    cta := some "c1", cta_type := some "none", total_word_count := some 4
    estimated_duration_seconds := some 4, creator_username := some "alice"
    platform := some "instagram", views := some 100, likes := some 10 }

def c10B : Skel :=
  { video_id := some "a2", hook := some "h2", hook_technique := some "contrast"
    hook_word_count := some 0, value := some "v2", value_structure := some "story"
    cta := some "c2", cta_type := some "follow", total_word_count := some 0
    estimated_duration_seconds := some 0, creator_username := some "alice"
    platform := some "instagram", views := some 200, likes := some 20 }

/-- C10 counterexample: for hook word counts 4 and 0 the arithmetic mean
over all records in the group is 2, but aggregate reports 4, because
safe-mean drops the zero-valued record from numerator and denominator.  So
the computed average does not equal the arithmetic mean of the field over
all records of the group. -/
theorem C10_counterexample :
    (aggregate [c10A, c10B]).avg_hook_word_count = 4 ∧
      (([c10A, c10B].map hookWcOf).sum / (([c10A, c10B] : List Skel).length : ℚ))
        = 2 ∧
      ¬ (aggregate [c10A, c10B]).avg_hook_word_count =
        (([c10A, c10B].map hookWcOf).sum /
          (([c10A, c10B] : List Skel).length : ℚ)) := by
  have h1 : (aggregate [c10A, c10B]).avg_hook_word_count = 4 := by
    unfold aggregate
    rw [if_neg (by simp)]
    norm_num [safeMean, hookWcOf, c10A, c10B, pyGetD, List.filter_cons]
  have h2 : (([c10A, c10B].map hookWcOf).sum /
      (([c10A, c10B] : List Skel).length : ℚ)) = 2 := by
    norm_num [hookWcOf, c10A, c10B, pyGetD]
  refine ⟨h1, h2, ?_⟩
  rw [h1, h2]
  norm_num

/-- Witness for C10 at the concrete group of creator alice. -/
theorem C10_witness :
    (statsFor (aggregate [c10A, c10B]) ("alice")).map (fun cs =>
        (cs.avg_hook_word_count, cs.avg_total_word_count,
          cs.avg_duration_seconds)) =
      some (posMean (([c10A, c10B].filter
          (fun s => creatorOf s == "alice")).map hookWcOf),
        posMean (([c10A, c10B].filter
          (fun s => creatorOf s == "alice")).map totalWcOf),
        posMean (([c10A, c10B].filter
          (fun s => creatorOf s == "alice")).map durationOf)) :=
  (C10_averages [c10A, c10B]).2.2 ("alice") (by decide)

/-! ## LLM client retry loop (src/skeleton_ripper/llm_client.py, chat,
lines 174-265)

One provider call is abstracted as an outcome per attempt index: success
with a text, an HTTPError carrying a status (and whether a response object
was attached), a timeout, a connection error, or any other exception. -/

/-- Outcome of the provider call at one attempt. -/
inductive CallOutcome where
  | success (text : String)
  | httpError (status : Nat) (hasResponse : Bool)
  | timeout
  | connError
  | other
deriving DecidableEq, Repr

/-- The exception chat raises to its caller. -/
inductive ChatExc where
  | http (status : Nat) (hasResponse : Bool)
  | timeout
  | conn
  | other
  | exhausted
deriving DecidableEq, Repr

/-- What chat returns: the successful text or a propagated exception. -/
inductive ChatOut where
  | ok (text : String)
  | raised (e : ChatExc)
deriving DecidableEq, Repr

/-- Observed behaviour of one chat call: its outcome, the backoff delays
slept between attempts (in order), and how many provider attempts were
made. -/
structure ChatResult where
  result : ChatOut
  delays : List ℚ
  attemptsMade : Nat
deriving DecidableEq, Repr

/-- The environment: what the provider call would return at each attempt
index. -/
structure ChatEnv where
  outcome : Nat → CallOutcome

/-- Retry configuration of LLMClient, with its defaults. -/
structure ChatCfg where
  maxRetries : Nat := 3
  baseDelay : ℚ := 1
  maxDelay : ℚ := 30

/-- RETRYABLE-STATUS-CODES (llm_client.py line 116). -/
def retryableStatusCodes : List Nat := [429, 500, 502, 503, 504]

/-- Exponential backoff delay for an attempt index (llm_client.py lines
227 and 245). -/
def backoffDelay (cfg : ChatCfg) (attempt : Nat) : ℚ :=
  min (cfg.baseDelay * 2 ^ attempt) cfg.maxDelay

/-- Prefix a retry (one made attempt plus its backoff sleep) onto the
behaviour of the remaining attempts. -/
def prependAttempt (cfg : ChatCfg) (attempt : Nat) (r : ChatResult) :
    ChatResult :=
  { r with
    delays := backoffDelay cfg attempt :: r.delays
    attemptsMade := r.attemptsMade + 1 }

/-- Body of the chat retry loop (llm_client.py lines 200-265).  The fuel
mirrors the for-loop bound range(max-retries + 1); the final raise after
the loop (line 265) is the fuel-0 case. -/
def chatAux (env : ChatEnv) (cfg : ChatCfg) : Nat → Nat → ChatResult
  | _, 0 => { result := .raised .exhausted, delays := [], attemptsMade := 0 }
  | attempt, fuel + 1 =>
    match env.outcome attempt with
    | .success t => { result := .ok t, delays := [], attemptsMade := 1 }
    | .httpError st hasResp =>
      let code := if hasResp then st else 0
      if code ∈ retryableStatusCodes ∧ attempt < cfg.maxRetries then
        prependAttempt cfg attempt (chatAux env cfg (attempt + 1) fuel)
      else
        { result := .raised (.http st hasResp), delays := [], attemptsMade := 1 }
    | .timeout =>
      if attempt < cfg.maxRetries then
        prependAttempt cfg attempt (chatAux env cfg (attempt + 1) fuel)
      else
        { result := .raised .timeout, delays := [], attemptsMade := 1 }
    | .connError =>
      if attempt < cfg.maxRetries then
        prependAttempt cfg attempt (chatAux env cfg (attempt + 1) fuel)
      else
        { result := .raised .conn, delays := [], attemptsMade := 1 }
    | .other => { result := .raised .other, delays := [], attemptsMade := 1 }

/-- LLMClient.chat. -/
def chat (env : ChatEnv) (cfg : ChatCfg) : ChatResult :=
  chatAux env cfg 0 (cfg.maxRetries + 1)

/-- An outcome the loop classifies as retryable: HTTP status in the
retryable set (status 0 when the error carries no response), a timeout, or
a connection error. -/
def retryableOutcome : CallOutcome → Bool
  | .success _ => false
  | .httpError st hasResp =>
    decide ((if hasResp then st else 0) ∈ retryableStatusCodes)
  | .timeout => true
  | .connError => true
  | .other => false

/-- The exception a failing outcome is raised as. -/
def excOf : CallOutcome → ChatExc
  | .success _ => .exhausted
  | .httpError st hasResp => .http st hasResp
  | .timeout => .timeout
  | .connError => .conn
  | .other => .other

/-! ### Retry classification and backoff (C4) -/

theorem chatAux_unroll (env : ChatEnv) (cfg : ChatCfg) :
    ∀ (n : Nat), ∀ (a fuel : Nat),
      (∀ k, k < n → retryableOutcome (env.outcome (a + k)) = true ∧
        a + k < cfg.maxRetries) →
      chatAux env cfg a (n + fuel) =
        { result := (chatAux env cfg (a + n) fuel).result
          delays := (List.range n).map (fun k => backoffDelay cfg (a + k)) ++
            (chatAux env cfg (a + n) fuel).delays
          attemptsMade := n + (chatAux env cfg (a + n) fuel).attemptsMade } := by
  intro n
  induction n with
  | zero =>
    intro a fuel _
    simp
  | succ n ih =>
    intro a fuel hall
    have hfirst := hall 0 (by omega)
    simp only [Nat.add_zero] at hfirst
    have hstep : chatAux env cfg a (n + 1 + fuel) =
        prependAttempt cfg a (chatAux env cfg (a + 1) (n + fuel)) := by
      have hfuel : n + 1 + fuel = (n + fuel) + 1 := by omega
      rw [hfuel]
      cases hout : env.outcome a with
      | success t => rw [hout] at hfirst; simp [retryableOutcome] at hfirst
      | other => rw [hout] at hfirst; simp [retryableOutcome] at hfirst
      | timeout =>
        rw [chatAux.eq_def]
        simp only [hout]
        rw [if_pos hfirst.2]
      | connError =>
        rw [chatAux.eq_def]
        simp only [hout]
        rw [if_pos hfirst.2]
      | httpError st hasResp =>
        rw [hout] at hfirst
        have hmem : ((if hasResp then st else 0) ∈ retryableStatusCodes) := by
          have := hfirst.1
          simp [retryableOutcome] at this
          exact this
        rw [chatAux.eq_def]
        simp only [hout]
        rw [if_pos ⟨hmem, hfirst.2⟩]
    rw [hstep]
    have hrest := ih (a + 1) fuel (by
      intro k hk
      have := hall (k + 1) (by omega)
      constructor
      · have h1 := this.1
        have : a + (k + 1) = a + 1 + k := by omega
        rw [this] at h1
        exact h1
      · have h2 := this.2
        omega)
    rw [hrest]
    have hsh : a + 1 + n = a + (n + 1) := by omega
    rw [hsh]
    have hmaps : (List.range (n + 1)).map (fun k => backoffDelay cfg (a + k)) =
        backoffDelay cfg a ::
          (List.range n).map (fun k => backoffDelay cfg (a + 1 + k)) := by
      rw [List.range_succ_eq_map]
      simp only [List.map_cons, Nat.add_zero, List.map_map]
      congr 1
      apply List.map_congr_left
      intro k _
      simp only [Function.comp_apply]
      congr 1
      omega
    simp only [prependAttempt, ChatResult.mk.injEq, hmaps, List.cons_append,
      true_and]
    omega

/-- One unrolling step of the loop body at positive fuel. -/
theorem chatAux_succ (env : ChatEnv) (cfg : ChatCfg) (a fuel : Nat) :
    chatAux env cfg a (fuel + 1) =
      match env.outcome a with
      | .success t => { result := .ok t, delays := [], attemptsMade := 1 }
      | .httpError st hasResp =>
        if ((if hasResp then st else 0) ∈ retryableStatusCodes) ∧
            a < cfg.maxRetries then
          prependAttempt cfg a (chatAux env cfg (a + 1) fuel)
        else
          { result := .raised (.http st hasResp), delays := [], attemptsMade := 1 }
      | .timeout =>
        if a < cfg.maxRetries then
          prependAttempt cfg a (chatAux env cfg (a + 1) fuel)
        else
          { result := .raised .timeout, delays := [], attemptsMade := 1 }
      | .connError =>
        if a < cfg.maxRetries then
          prependAttempt cfg a (chatAux env cfg (a + 1) fuel)
        else
          { result := .raised .conn, delays := [], attemptsMade := 1 }
      | .other => { result := .raised .other, delays := [], attemptsMade := 1 } :=
  rfl

/-- C4 (amended): the retry loop of chat treats exactly the statuses 429,
500, 502, 503 and 504 (and an HTTPError with no attached response as
status 0, which is not retryable), together with timeouts and connection
errors, as retryable - not every HTTP 5xx.  After n retryable failures
(n at most the bound, default 3), a success returns its text, a
non-retryable failure propagates immediately, and a retryable failure at
the bound propagates; in each case the loop slept the backoff delays
min(base * 2^k, ceiling) for k below n and made n+1 provider attempts. -/
theorem C4_retry_policy (env : ChatEnv) (cfg : ChatCfg) (n : Nat)
    (hn : n ≤ cfg.maxRetries)
    (hretry : ∀ k, k < n → retryableOutcome (env.outcome k) = true) :
    (∀ t, env.outcome n = .success t →
      chat env cfg =
        { result := .ok t
          delays := (List.range n).map (backoffDelay cfg)
          attemptsMade := n + 1 }) ∧
      (retryableOutcome (env.outcome n) = false →
        (∀ t, env.outcome n ≠ .success t) →
        chat env cfg =
          { result := .raised (excOf (env.outcome n))
            delays := (List.range n).map (backoffDelay cfg)
            attemptsMade := n + 1 }) ∧
      (n = cfg.maxRetries → retryableOutcome (env.outcome n) = true →
        chat env cfg =
          { result := .raised (excOf (env.outcome n))
            delays := (List.range n).map (backoffDelay cfg)
            attemptsMade := n + 1 }) := by
  have hfuel : cfg.maxRetries + 1 = n + (cfg.maxRetries + 1 - n) := by omega
  have hunroll := chatAux_unroll env cfg n 0 (cfg.maxRetries + 1 - n)
    (by
      intro k hk
      refine ⟨by simpa using hretry k hk, by omega⟩)
  have hchat : chat env cfg =
      { result := (chatAux env cfg n (cfg.maxRetries + 1 - n)).result
        delays := (List.range n).map (fun k => backoffDelay cfg k) ++
          (chatAux env cfg n (cfg.maxRetries + 1 - n)).delays
        attemptsMade := n + (chatAux env cfg n (cfg.maxRetries + 1 - n)).attemptsMade } := by
    unfold chat
    rw [hfuel]
    simpa using hunroll
  obtain ⟨f, hf⟩ : ∃ f, cfg.maxRetries + 1 - n = f + 1 := ⟨cfg.maxRetries - n, by omega⟩
  refine ⟨?_, ?_, ?_⟩
  · intro t hsucc
    rw [hchat, hf, chatAux_succ]
    simp [hsucc]
  · intro hnr hnsucc
    rw [hchat, hf, chatAux_succ]
    cases hout : env.outcome n with
    | success t => exact absurd hout (hnsucc t)
    | other => simp [excOf]
    | timeout => rw [hout] at hnr; simp [retryableOutcome] at hnr
    | connError => rw [hout] at hnr; simp [retryableOutcome] at hnr
    | httpError st hasResp =>
      rw [hout] at hnr
      simp only [retryableOutcome, decide_eq_false_iff_not] at hnr
      simp only
      rw [if_neg (by
        intro hcontra
        exact hnr hcontra.1)]
      simp [excOf]
  · intro hmax hr
    rw [hchat, hf, chatAux_succ]
    cases hout : env.outcome n with
    | success t => rw [hout] at hr; simp [retryableOutcome] at hr
    | other => rw [hout] at hr; simp [retryableOutcome] at hr
    | timeout =>
      simp only
      rw [if_neg (by omega)]
      simp [excOf]
    | connError =>
      simp only
      rw [if_neg (by omega)]
      simp [excOf]
    | httpError st hasResp =>
      simp only
      rw [if_neg (by
        intro hcontra
        omega)]
      simp [excOf]

/-- A provider that always answers HTTP 501 (a 5xx status). -/
def c4Env501 : ChatEnv := { outcome := fun _ => .httpError 501 true }

/-- C4 counterexample: HTTP 501 is a 5xx status, but it is not in the
retryable set, so chat with the default configuration propagates it
immediately after a single attempt with no backoff sleep - contradicting
the claim that every HTTP 5xx is retried. -/
theorem C4_counterexample :
    chat c4Env501 {} =
        { result := .raised (.http 501 true), delays := [], attemptsMade := 1 } ∧
      500 ≤ 501 ∧ 501 < 600 ∧ ¬ (501 ∈ retryableStatusCodes) := by
  refine ⟨?_, by omega, by omega, by decide⟩
  rw [chat, chatAux.eq_def]
  simp [c4Env501, retryableStatusCodes]

/-- The scenario of the spec: two HTTP 503 answers, then success. -/
def c4EnvRecover : ChatEnv :=
  { outcome := fun a => if a < 2 then .httpError 503 true else .success "done" }

/-- Witness for C4 at the 503-503-success scenario with the default
configuration: the call succeeds on the third attempt after two backoff
sleeps. -/
theorem C4_witness :
    chat c4EnvRecover {} =
      { result := .ok "done"
        delays := (List.range 2).map (backoffDelay {})
        attemptsMade := 3 } :=
  (C4_retry_policy c4EnvRecover {} 2 (by decide) (by decide)).1 "done" rfl

/-! ## Pipeline orchestration (pipeline.py, run, lines 170-341)

The stages downstream of acquisition are the embedded extractor and
aggregator; acquisition and synthesis are environment fields.  Ghost
booleans record which stages were invoked.  The ValueError raised on zero
valid transcripts (line 243) and on zero skeletons (line 276) is caught by
the surrounding except block, which marks the job FAILED (lines 332-338)
while JobResult.success keeps its initial false. -/

/-- JobStatus (pipeline.py lines 49-58). -/
inductive JobStatus where
  | pending
  | scraping
  | transcribing
  | extracting
  | aggregating
  | synthesizing
  | complete
  | failed
deriving DecidableEq, Repr

/-- What the run needs to know about a synthesis outcome. -/
structure SynthResult where
  success : Bool
  error : String := ""

/-- Environment of one pipeline run. -/
structure RunEnv where
  /-- Result of scrape-and-transcribe, or the message of an exception it
  raised (missing cookies, session failure, ...). -/
  scrapeOutcome : Except String (List TranscriptRec)
  extractEnv : ExtractEnv
  synthesize : AggregatedData → SynthResult

/-- Observable outcome of a run. -/
structure RunOut where
  success : Bool
  status : JobStatus
  extractInvoked : Bool
  aggregateInvoked : Bool
  synthInvoked : Bool
  skeletons : List Skel
  errors : List String

/-- SkeletonRipperPipeline.run (pipeline.py lines 170-341), with the
default extractor settings (batch size 4, max retries 2). -/
def runPipeline (env : RunEnv) (minValidRatio : ℚ) : RunOut :=
  match env.scrapeOutcome with
  | .error e =>
    { success := false, status := .failed, extractInvoked := false
      aggregateInvoked := false, synthInvoked := false, skeletons := []
      errors := [e] }
  | .ok transcripts =>
    let validCount := transcripts.countP (fun t => isValidTranscript t.transcript)
    let ratio : ℚ :=
      if transcripts = [] then 0 else (validCount : ℚ) / transcripts.length
    let errs0 :=
      if ratio < minValidRatio then ["Low transcript validity"] else []
    if validCount = 0 then
      { success := false, status := .failed, extractInvoked := false
        aggregateInvoked := false, synthInvoked := false, skeletons := []
        errors := errs0 ++ ["No valid transcripts to process"] }
    else
      let valids := transcripts.filter (fun t => isValidTranscript t.transcript)
      let er := extractAll env.extractEnv 2 4 valids
      let errs1 := errs0 ++
        (if er.failed_video_ids = [] then [] else ["Failed to extract"])
      if er.successful = [] then
        { success := false, status := .failed, extractInvoked := true
          aggregateInvoked := false, synthInvoked := false, skeletons := []
          errors := errs1 ++ ["No skeletons extracted successfully"] }
      else
        let agg := aggregate er.successful
        let syn := env.synthesize agg
        let errs2 := errs1 ++
          (if syn.success then [] else ["Synthesis failed: " ++ syn.error])
        { success := true, status := .complete, extractInvoked := true
          aggregateInvoked := true, synthInvoked := true
          skeletons := er.successful, errors := errs2 }

/-- C5: when zero transcripts pass the validity predicate, the run fails
immediately: success is false, the status is FAILED, and the extraction,
aggregation and synthesis stages are never invoked. -/
theorem C5_zero_valid_fails (env : RunEnv) (minValidRatio : ℚ)
    (ts : List TranscriptRec)
    (hscrape : env.scrapeOutcome = .ok ts)
    (hzero : ts.countP (fun t => isValidTranscript t.transcript) = 0) :
    (runPipeline env minValidRatio).success = false ∧
      (runPipeline env minValidRatio).status = .failed ∧
      (runPipeline env minValidRatio).extractInvoked = false ∧
      (runPipeline env minValidRatio).aggregateInvoked = false ∧
      (runPipeline env minValidRatio).synthInvoked = false := by
  unfold runPipeline
  rw [hscrape]
  simp only [hzero]
  simp

/-- A transcript that fails the validity predicate (too short). -/
def c5Invalid : TranscriptRec :=
  { video_id := "v1", username := "alice", platform := "instagram"
    views := 5, likes := 1, url := "", video_url := ""
    transcript := "too short", from_cache := false }

/-- Environment for the C5 witness: the acquisition stage returned a single
invalid transcript. -/
def c5Env : RunEnv :=
  { scrapeOutcome := .ok [c5Invalid]
    extractEnv :=
      { respond := fun _ _ => .parseFail, now := "t0", modelId := "m" }
    synthesize := fun _ => { success := true } }

/-- Witness for C5 at the concrete zero-valid environment. -/
theorem C5_witness :
    (runPipeline c5Env (3 / 5)).success = false ∧
      (runPipeline c5Env (3 / 5)).status = .failed ∧
      (runPipeline c5Env (3 / 5)).extractInvoked = false ∧
      (runPipeline c5Env (3 / 5)).aggregateInvoked = false ∧
      (runPipeline c5Env (3 / 5)).synthInvoked = false :=
  C5_zero_valid_fails c5Env (3 / 5) [c5Invalid] rfl (by decide)

end SkeletonRipper
